import Mathlib

/-!
Shallow embedding of the `camhack` worker's game core (Rust sources under
`src/worker/src/`), covering:

* `game/grid.rs` — axial hex coordinates, neighbors, distance, adjacency;
* `game/events.rs` — the `GameEvent` log payloads;
* `game/state.rs` — `GameState` and the deterministic reducer
  `GameState::process_event`;
* `game/logic.rs` — the leader-side evaluator `GameLogic::tick`;
* `raft/storage.rs` — the state machine `apply_to_state_machine`,
  `build_snapshot` and `install_snapshot`;
* `raft/api.rs` — the attack-command HTTP handler `handle_attack_command`.

Modelling conventions:

* Rust `HashMap<K, V>` is modelled as an association list `List (K × V)`
  with map-style operations (`hfind`, `hinsert`, `herase`, `hcontains`).  `hinsert` replaces the value in place when the key is
  present (mirroring `HashMap::insert` / `get_mut` mutation) and appends
  otherwise.  Where the Rust code iterates over `HashMap::values()` in an
  unspecified order, the model takes the iteration sequence explicitly as a
  `List` argument.
* `u64` identifiers, timestamps and log indices are `Nat` (no arithmetic is
  performed on them other than `saturating_sub`, modelled by truncated `Nat`
  subtraction, and order comparison).
* `i32` grid coordinates are `Int` (all claim-relevant coordinates are tiny,
  far from wrap-around).
* `f32` packet loss is `ℚ`.  The only operation the code performs on it is a
  comparison against the constant `0.2f32`; for `f32` inputs `x` we have
  `x ≥ 0.2f32 ↔ x ≥ 1/5` because `0.2f32 > 1/5` and no `f32` value lies in
  the interval `[1/5, 0.2f32)`, so the rational threshold `1/5` is an exact
  model of the comparison.
-/

/-! ## Association-list model of `HashMap` -/

def hfind {α β : Type} [DecidableEq α] : List (α × β) → α → Option β
  | [], _ => none
  | kv :: rest, k => if kv.1 = k then some kv.2 else hfind rest k

def hinsert {α β : Type} [DecidableEq α] : List (α × β) → α → β → List (α × β)
  | [], k, v => [(k, v)]
  | kv :: rest, k, v => if kv.1 = k then (k, v) :: rest else kv :: hinsert rest k v

def herase {α β : Type} [DecidableEq α] (m : List (α × β)) (k : α) : List (α × β) :=
  m.filter (fun kv => decide (kv.1 ≠ k))

def hcontains {α β : Type} [DecidableEq α] (m : List (α × β)) (k : α) : Bool :=
  (hfind m k).isSome

/-! ## `game/grid.rs` and `game/events.rs` -/

/-- Axial coordinates for the triangular grid (`NodeCoord` in `events.rs`). -/
structure NodeCoord where
  q : Int
  r : Int
deriving DecidableEq, Repr

namespace NodeCoord

/-- `NodeCoord::new`. -/
def new (q r : Int) : NodeCoord := ⟨q, r⟩

/-- `NodeCoord::neighbors`: the six neighbors, in source array order. -/
def neighbors (c : NodeCoord) : List NodeCoord :=
  [ new (c.q + 1) c.r,
    new (c.q - 1) c.r,
    new c.q (c.r + 1),
    new c.q (c.r - 1),
    new (c.q + 1) (c.r - 1),
    new (c.q - 1) (c.r + 1) ]

/-- `NodeCoord::distance`: `(|dq| + |dr| + |dq+dr|) / 2`. -/
def distance (c o : NodeCoord) : Int :=
  ((c.q - o.q).natAbs + (c.r - o.r).natAbs + (c.q + c.r - o.q - o.r).natAbs : Int) / 2

/-- `NodeCoord::is_adjacent`: distance exactly 1. -/
def is_adjacent (c o : NodeCoord) : Bool :=
  distance c o = 1

end NodeCoord

/-- `NodeType` in `events.rs`. -/
inductive NodeType where
  | Capital
  | Regular
  | Client
deriving DecidableEq, Repr

/-- `AttackTarget` in `events.rs`. -/
inductive AttackTarget where
  | Coordinate (coord : NodeCoord)
  | Player (player_id : Nat)
deriving DecidableEq, Repr

/-- `GameEvent` in `events.rs`. -/
inductive GameEvent where
  | PlayerJoin (player_id : Nat) (name : String) (capital_coord : NodeCoord)
      (node_ip : String) (is_client : Bool) (timestamp : Nat)
  | SetNodeTarget (node_coord : NodeCoord) (target : Option AttackTarget) (timestamp : Nat)
  | NodeCaptured (node_coord : NodeCoord) (new_owner_id : Nat) (timestamp : Nat)
  | NodeMetricsReport (node_coord : NodeCoord) (bandwidth_in : Nat) (packet_loss : ℚ)
      (timestamp : Nat)
  | NodeInitializationStarted (node_coord : NodeCoord) (owner_id : Nat) (timestamp : Nat)
  | NodeInitializationComplete (node_coord : NodeCoord) (node_ip : String) (timestamp : Nat)
deriving DecidableEq, Repr

/-! ## `game/state.rs` -/

/-- `Player` in `state.rs`. -/
structure Player where
  player_id : Nat
  name : String
  capital_coord : NodeCoord
  alive : Bool
  join_time : Nat
deriving DecidableEq, Repr

/-- `NodeInitState` in `state.rs`. -/
inductive NodeInitState where
  | Initializing
  | Ready
deriving DecidableEq, Repr

/-- `Node` in `state.rs`. -/
structure Node where
  coord : NodeCoord
  owner_id : Nat
  node_type : NodeType
  current_target : Option AttackTarget
  is_client : Bool
  init_state : NodeInitState
deriving DecidableEq, Repr

/-- `NodeMetrics` in `state.rs`. -/
structure NodeMetrics where
  bandwidth_in : Nat
  packet_loss : ℚ
  timestamp : Nat
deriving DecidableEq, Repr

/-- `GameState` in `state.rs`.  The `HashMap` fields are association lists. -/
structure GameState where
  players : List (Nat × Player)
  nodes : List (NodeCoord × Node)
  node_metrics : List (NodeCoord × NodeMetrics)
  node_ips : List (NodeCoord × String)
  client_ips : List (Nat × String)
  last_applied_log_index : Nat
  game_over : Bool
deriving DecidableEq, Repr

namespace GameState

/-- `GameState::new`. -/
def new : GameState :=
  { players := []
    nodes := []
    node_metrics := []
    node_ips := []
    client_ips := []
    last_applied_log_index := 0
    game_over := false }

/-- The alive-player count computed in the `NodeCaptured` arm:
`self.players.values().filter(|p| p.alive).count()`. -/
def alive_count (players : List (Nat × Player)) : Nat :=
  (players.filter (fun kv => kv.2.alive)).length

/-- `GameState::process_event`.  Mirrors the Rust `match` arm by arm. -/
def process_event (s : GameState) (event : GameEvent) (log_index : Nat) : GameState :=
  let s1 := { s with last_applied_log_index := log_index }
  match event with
  | .PlayerJoin player_id name capital_coord node_ip is_client timestamp =>
    let player : Player :=
      { player_id := player_id, name := name, capital_coord := capital_coord,
        alive := true, join_time := timestamp }
    let capital : Node :=
      { coord := capital_coord, owner_id := player_id,
        node_type := if is_client then NodeType.Client else NodeType.Capital,
        current_target := none, is_client := is_client,
        init_state := NodeInitState.Ready }
    let s2 := { s1 with
      players := hinsert s1.players player_id player,
      nodes := hinsert s1.nodes capital_coord capital,
      node_ips := hinsert s1.node_ips capital_coord node_ip }
    if is_client then
      { s2 with client_ips := hinsert s2.client_ips player_id node_ip }
    else s2
  | .SetNodeTarget node_coord target _ =>
    match hfind s1.nodes node_coord with
    | some node =>
      { s1 with nodes := hinsert s1.nodes node_coord { node with current_target := target } }
    | none => s1
  | .NodeCaptured node_coord new_owner_id _ =>
    match hfind s1.nodes node_coord with
    | some node =>
      let old_owner_id := node.owner_id
      let node1 := { node with owner_id := new_owner_id, current_target := none }
      if node1.node_type = NodeType.Capital then
        let players1 :=
          match hfind s1.players old_owner_id with
          | some old_owner => hinsert s1.players old_owner_id { old_owner with alive := false }
          | none => s1.players
        let node2 := { node1 with node_type := NodeType.Regular }
        let s2 := { s1 with players := players1,
                            nodes := hinsert s1.nodes node_coord node2 }
        if alive_count s2.players ≤ 1 then { s2 with game_over := true } else s2
      else
        { s1 with nodes := hinsert s1.nodes node_coord node1 }
    | none => s1
  | .NodeMetricsReport node_coord bandwidth_in packet_loss timestamp =>
    let metrics : NodeMetrics :=
      { bandwidth_in := bandwidth_in, packet_loss := packet_loss, timestamp := timestamp }
    { s1 with node_metrics := hinsert s1.node_metrics node_coord metrics }
  | .NodeInitializationStarted node_coord owner_id _ =>
    if hcontains s1.nodes node_coord then s1
    else
      let node : Node :=
        { coord := node_coord, owner_id := owner_id, node_type := NodeType.Regular,
          current_target := none, is_client := false,
          init_state := NodeInitState.Initializing }
      { s1 with nodes := hinsert s1.nodes node_coord node }
  | .NodeInitializationComplete node_coord node_ip _ =>
    let nodes1 :=
      match hfind s1.nodes node_coord with
      | some node => hinsert s1.nodes node_coord { node with init_state := NodeInitState.Ready }
      | none => s1.nodes
    { s1 with nodes := nodes1, node_ips := hinsert s1.node_ips node_coord node_ip }

end GameState

/-- Folding `process_event` over a list of `(event, log_index)` pairs: the
replicas' replay of the committed log. -/
def applyLog (s : GameState) (l : List (GameEvent × Nat)) : GameState :=
  l.foldl (fun acc p => acc.process_event p.1 p.2) s

/-! ## `game/logic.rs` — the leader evaluator -/

/-- `GameConfig` in `logic.rs`. -/
structure GameConfig where
  overload_duration_secs : Nat
  overload_threshold : ℚ
deriving DecidableEq, Repr

/-- `GameConfig::default()`: 10 seconds, 20% packet loss (`mkRat 1 5 = 1/5`,
written with `mkRat` so that concrete instances evaluate by `decide`). -/
def GameConfig.default : GameConfig :=
  { overload_duration_secs := 10, overload_threshold := mkRat 1 5 }

/-- One evaluator tick's output: the events pushed so far and the
`AttackTracker.overload_start_times` map (`target_coord ↦ (attacker_id,
overload_start_time)`). -/
structure TickAcc where
  events : List GameEvent
  tracker : List (NodeCoord × (Nat × Nat))
deriving DecidableEq, Repr

/-- The attacker filter in `GameLogic::tick`:
`nodes.values().filter(|n| n.current_target == Some(target_coord))`,
with the target read as the grid-coordinate variant. -/
def attackersOf (nodes : List Node) (target_coord : NodeCoord) : List Node :=
  nodes.filter (fun n => decide (n.current_target = some (AttackTarget.Coordinate target_coord)))

/-- The body of the per-node loop in `GameLogic::tick`.  `nodes` is the full
iteration sequence of `game_state.nodes.values()`; `node` is the loop
variable; `current_time` is the wall-clock seconds read at the top of the
tick; `u64::saturating_sub` is truncated `Nat` subtraction. -/
def tickNode (config : GameConfig) (nodes : List Node)
    (metrics : List (NodeCoord × NodeMetrics)) (current_time : Nat)
    (acc : TickAcc) (node : Node) : TickAcc :=
  let target_coord := node.coord
  match attackersOf nodes target_coord with
  | [] => { acc with tracker := herase acc.tracker target_coord }
  | attacker :: _ =>
    match hfind metrics target_coord with
    | none => acc
    | some m =>
      if config.overload_threshold ≤ m.packet_loss then
        let entry :=
          match hfind acc.tracker target_coord with
          | some e => e
          | none => (attacker.owner_id, current_time)
        let tracker1 :=
          match hfind acc.tracker target_coord with
          | some _ => acc.tracker
          | none => hinsert acc.tracker target_coord (attacker.owner_id, current_time)
        if config.overload_duration_secs ≤ current_time - entry.2 then
          { events := acc.events ++ [GameEvent.NodeCaptured target_coord entry.1 current_time],
            tracker := herase tracker1 target_coord }
        else
          { acc with tracker := tracker1 }
      else
        { acc with tracker := herase acc.tracker target_coord }

/-- `GameLogic::tick`, as a pure function of the node iteration sequence, the
metrics map, the wall-clock time and the incoming tracker. -/
def GameLogic.tick (config : GameConfig) (nodes : List Node)
    (metrics : List (NodeCoord × NodeMetrics)) (current_time : Nat)
    (tracker : List (NodeCoord × (Nat × Nat))) : TickAcc :=
  nodes.foldl (tickNode config nodes metrics current_time) { events := [], tracker := tracker }

/-- Several consecutive evaluator ticks over an unchanged game state, at the
given wall-clock times, accumulating the proposed events. -/
def runTicks (config : GameConfig) (nodes : List Node)
    (metrics : List (NodeCoord × NodeMetrics))
    (tracker : List (NodeCoord × (Nat × Nat))) (times : List Nat) : TickAcc :=
  times.foldl
    (fun acc t =>
      let r := GameLogic.tick config nodes metrics t acc.tracker
      { events := acc.events ++ r.events, tracker := r.tracker })
    { events := [], tracker := tracker }

/-- The `NodeCaptured` events for coordinate `c` among a tick's proposals. -/
def capturesFor (c : NodeCoord) (events : List GameEvent) : List GameEvent :=
  events.filter (fun e =>
    match e with
    | GameEvent.NodeCaptured c2 _ _ => decide (c2 = c)
    | _ => false)

/-! ## `raft/storage.rs` — state machine, snapshot build/install -/

/-- A Raft log entry as seen by `apply_to_state_machine`: its index and, for
`EntryPayload::Normal`, the carried event (`none` models blank/membership
payloads, which produce no state change). -/
structure LogEntry where
  index : Nat
  payload : Option GameEvent
deriving DecidableEq, Repr

/-- `GameStateMachine` in `storage.rs`. -/
structure GameStateMachine where
  game_state : GameState
  events : List GameEvent
  last_applied_log_index : Nat
deriving DecidableEq, Repr

/-- The fresh state machine built by `MemStorage::new`. -/
def GameStateMachine.new : GameStateMachine :=
  { game_state := GameState.new, events := [], last_applied_log_index := 0 }

/-- `MemStorage::apply_to_state_machine`: for each `Normal` entry, push the
event, run the reducer at the entry's log index, and record the index;
other payloads leave the state machine unchanged. -/
def apply_to_state_machine (sm : GameStateMachine) (entries : List LogEntry) :
    GameStateMachine :=
  entries.foldl
    (fun sm entry =>
      match entry.payload with
      | some ev =>
        { game_state := sm.game_state.process_event ev entry.index,
          events := sm.events ++ [ev],
          last_applied_log_index := entry.index }
      | none => sm)
    sm

/-- `GameStateSnapshot` in `storage.rs` (the serialised payload; the bincode
byte round-trip is modelled as the identity). -/
structure GameStateSnapshot where
  events : List GameEvent
  last_applied_log_index : Nat
deriving DecidableEq, Repr

/-- `MemStorage::build_snapshot`: capture the event vector and the last
applied index. -/
def build_snapshot (sm : GameStateMachine) : GameStateSnapshot :=
  { events := sm.events, last_applied_log_index := sm.last_applied_log_index }

/-- `MemStorage::install_snapshot` applied on a fresh empty replica: replace
the event vector and last-applied index, then rebuild `GameState` from
scratch by replaying the events at indices `1..n` (`idx as u64 + 1`). -/
def install_snapshot (snap : GameStateSnapshot) : GameStateMachine :=
  { events := snap.events,
    last_applied_log_index := snap.last_applied_log_index,
    game_state := applyLog GameState.new (snap.events.enum.map (fun p => (p.2, p.1 + 1))) }

/-! ## `raft/api.rs` — the attack-command handler -/

/-- Rust `{:?}` debug formatting of a `NodeCoord`, as interpolated into the
handler's messages. -/
def coordDebug (c : NodeCoord) : String :=
  "NodeCoord \x7b q: " ++ toString c.q ++ ", r: " ++ toString c.r ++ " \x7d"

/-- `AttackRequest` in `api.rs`. -/
structure AttackRequest where
  node_coord : NodeCoord
  target_coord : NodeCoord
deriving DecidableEq, Repr

/-- The observable outcome of `handle_attack_command`: HTTP status code, the
`CommandResponse` fields, and the events proposed to the Raft log (in
proposal order). -/
structure AttackCommandResult where
  status : Nat
  success : Bool
  message : String
  proposals : List GameEvent
deriving DecidableEq, Repr

/-- `handle_attack_command` in `api.rs`, as a pure function of the local
leader flag, the committed game state, the request, and the wall-clock
timestamp.  Proposal submission is modelled by listing the proposed events in
order; the EC2-spawn side call is out of scope. -/
def handle_attack_command (is_leader : Bool) (gs : GameState) (req : AttackRequest)
    (timestamp : Nat) : AttackCommandResult :=
  if !is_leader then
    { status := 503, success := false, message := "Not the leader", proposals := [] }
  else if !(hcontains gs.nodes req.node_coord) then
    { status := 400, success := false,
      message := "Attacker node " ++ coordDebug req.node_coord ++ " does not exist",
      proposals := [] }
  else if !(req.node_coord.is_adjacent req.target_coord) then
    { status := 400, success := false, message := "Nodes are not adjacent", proposals := [] }
  else
    let init_proposals :=
      if !(hcontains gs.nodes req.target_coord) then
        ((req.target_coord.neighbors).filter (fun nb => !(hcontains gs.nodes nb))).map
          (fun nb => GameEvent.NodeInitializationStarted nb 0 timestamp)
      else []
    { status := 200, success := true,
      message := "Node " ++ coordDebug req.node_coord ++ " now attacking "
        ++ coordDebug req.target_coord,
      proposals := init_proposals
        ++ [GameEvent.SetNodeTarget req.node_coord
              (some (AttackTarget.Coordinate req.target_coord)) timestamp] }


/-- Equality of two `GameState`s in every field except
`last_applied_log_index` (used to state the snapshot round-trip). -/
def eqExceptLast (a b : GameState) : Prop :=
  a.players = b.players ∧ a.nodes = b.nodes ∧ a.node_metrics = b.node_metrics ∧
  a.node_ips = b.node_ips ∧ a.client_ips = b.client_ips ∧ a.game_over = b.game_over

/-- The `(event, log_index)` pairs of the `Normal` entries of a log slice, in
order: exactly what `apply_to_state_machine` feeds to the reducer. -/
def normPairs (entries : List LogEntry) : List (GameEvent × Nat) :=
  entries.filterMap (fun en => en.payload.map (fun e => (e, en.index)))

/-! ## Concrete instances used by witnesses and counterexamples -/

/-- A player with id 1 whose capital is at `(0,0)`. -/
def alice : Player :=
  { player_id := 1, name := "A", capital_coord := ⟨0, 0⟩, alive := true, join_time := 0 }

/-- A Capital tile at `(0,0)` owned by player 1, currently attacking `(1,0)`. -/
def tile00Cap : Node :=
  { coord := ⟨0, 0⟩, owner_id := 1, node_type := .Capital,
    current_target := some (.Coordinate ⟨1, 0⟩), is_client := false, init_state := .Ready }

/-- A Regular tile at `(0,0)` owned by player 1, attacking nothing. -/
def targetTile00 : Node :=
  { coord := ⟨0, 0⟩, owner_id := 1, node_type := .Regular,
    current_target := none, is_client := false, init_state := .Ready }

/-- A Regular tile at `(1,0)` owned by player 22, attacking `(0,0)`. -/
def attacker22 : Node :=
  { coord := ⟨1, 0⟩, owner_id := 22, node_type := .Regular,
    current_target := some (.Coordinate ⟨0, 0⟩), is_client := false, init_state := .Ready }

/-- A Regular tile at `(0,1)` owned by player 11, attacking `(0,0)`.
`(0,1)` is lexicographically smaller than `(1,0)`. -/
def attacker11 : Node :=
  { coord := ⟨0, 1⟩, owner_id := 11, node_type := .Regular,
    current_target := some (.Coordinate ⟨0, 0⟩), is_client := false, init_state := .Ready }

/-- A game state holding player 1 and their capital at `(0,0)`. -/
def gsSelfCap : GameState :=
  { GameState.new with players := [(1, alice)], nodes := [(⟨0, 0⟩, tile00Cap)] }

/-- A game state whose only tile is the Regular tile at `(0,0)`. -/
def gsReg : GameState :=
  { GameState.new with nodes := [(⟨0, 0⟩, targetTile00)] }

/-- Metrics for `(0,0)` with 50% packet loss (above the 20% threshold). -/
def metHi : NodeMetrics := { bandwidth_in := 999, packet_loss := mkRat 1 2, timestamp := 3 }

/-- Metrics for `(0,0)` with 0% packet loss (below the 20% threshold). -/
def metLo : NodeMetrics := { bandwidth_in := 999, packet_loss := 0, timestamp := 3 }

/-- Metrics map: `(0,0)` overloaded. -/
def metricsHi : List (NodeCoord × NodeMetrics) := [(⟨0, 0⟩, metHi)]

/-- Metrics map: `(0,0)` healthy. -/
def metricsLo : List (NodeCoord × NodeMetrics) := [(⟨0, 0⟩, metLo)]

/-- An event applied at log index 2 in the snapshot counterexample. -/
def ev6 : GameEvent := .NodeMetricsReport ⟨0, 0⟩ 5 (mkRat 1 2) 7

/-- A state machine that applied a blank entry at index 1 and a Normal entry
at index 2 (as happens after a leader-election no-op entry). -/
def sm6 : GameStateMachine :=
  apply_to_state_machine GameStateMachine.new [⟨1, none⟩, ⟨2, some ev6⟩]

/-- A small concrete event log used by the determinism witness. -/
def demoLog : List (GameEvent × Nat) :=
  [ (.PlayerJoin 1 "A" ⟨0, 0⟩ "10.0.0.1" false 5, 1),
    (.PlayerJoin 2 "B" ⟨1, 0⟩ "10.0.0.2" false 6, 2),
    (.SetNodeTarget ⟨1, 0⟩ (some (.Coordinate ⟨0, 0⟩)) 7, 3),
    (.NodeCaptured ⟨0, 0⟩ 2 9, 4) ]

/-! ## Lemmas about the association-list map operations -/

theorem hfind_hinsert_self {α β : Type} [DecidableEq α] (m : List (α × β)) (k : α) (v : β) :
    hfind (hinsert m k v) k = some v := by
  induction m with
  | nil => simp [hinsert, hfind]
  | cons kv rest ih =>
    by_cases h : kv.1 = k
    · simp [hinsert, h, hfind]
    · simp [hinsert, h, hfind, ih]

theorem hfind_hinsert_ne {α β : Type} [DecidableEq α] (m : List (α × β)) (k k' : α) (v : β)
    (h : k ≠ k') : hfind (hinsert m k v) k' = hfind m k' := by
  induction m with
  | nil => simp [hinsert, hfind, h]
  | cons kv rest ih =>
    by_cases hk : kv.1 = k
    · have hne : kv.1 ≠ k' := by rw [hk]; exact h
      rw [hinsert, if_pos hk, hfind, if_neg h, hfind, if_neg hne]
    · rw [hinsert, if_neg hk]
      by_cases hk' : kv.1 = k'
      · rw [hfind, if_pos hk', hfind, if_pos hk']
      · rw [hfind, if_neg hk', hfind, if_neg hk', ih]

theorem hinsert_find_self {α β : Type} [DecidableEq α] (m : List (α × β)) (k : α) (v : β)
    (h : hfind m k = some v) : hinsert m k v = m := by
  induction m with
  | nil => simp [hfind] at h
  | cons kv rest ih =>
    by_cases hk : kv.1 = k
    · simp [hfind, hk] at h
      cases kv with
      | mk k1 v1 =>
        simp at hk
        subst hk
        simp at h
        simp [hinsert, h]
    · simp [hfind, hk] at h
      simp [hinsert, hk, ih h]

theorem herase_cons {α β : Type} [DecidableEq α] (kv : α × β) (rest : List (α × β)) (k : α) :
    herase (kv :: rest) k = if kv.1 = k then herase rest k else kv :: herase rest k := by
  by_cases hk : kv.1 = k <;> simp [herase, hk]

theorem hfind_herase_self {α β : Type} [DecidableEq α] (m : List (α × β)) (k : α) :
    hfind (herase m k) k = none := by
  induction m with
  | nil => simp [herase, hfind]
  | cons kv rest ih =>
    rw [herase_cons]
    by_cases hk : kv.1 = k
    · rw [if_pos hk]; exact ih
    · rw [if_neg hk, hfind, if_neg hk]; exact ih

theorem hfind_herase_ne {α β : Type} [DecidableEq α] (m : List (α × β)) (k k' : α)
    (h : k ≠ k') : hfind (herase m k) k' = hfind m k' := by
  induction m with
  | nil => simp [herase, hfind]
  | cons kv rest ih =>
    rw [herase_cons]
    by_cases hk : kv.1 = k
    · have hne : kv.1 ≠ k' := by rw [hk]; exact h
      rw [if_pos hk, hfind, if_neg hne]; exact ih
    · by_cases hk' : kv.1 = k'
      · rw [if_neg hk, hfind, if_pos hk', hfind, if_pos hk']
      · rw [if_neg hk, hfind, if_neg hk', hfind, if_neg hk']; exact ih

/-! ## Claim theorems -/

/-- **C2.** The reducer is deterministic and independent of wall time: it is a
pure function of the ordered `(event, log_index)` sequence (no clock input
exists in the model because `process_event` reads none), so applying the same
sequence to two independent fresh `GameState::new()` states yields equal
`GameState`s in every field. -/
theorem c2_theorem (l : List (GameEvent × Nat)) (s1 s2 : GameState)
    (h1 : s1 = GameState.new) (h2 : s2 = GameState.new) :
    applyLog s1 l = applyLog s2 l := by
  subst h1; subst h2; rfl

/-- Witness for C2 at a concrete event log. -/
theorem c2_witness :
    applyLog GameState.new demoLog = applyLog GameState.new demoLog :=
  c2_theorem demoLog GameState.new GameState.new rfl rfl

/-- **C7.** Idempotent node initialization: if the state already contains a
tile `t` at coord `c`, a second `NodeInitializationStarted` for `c` (any
owner) changes nothing but `last_applied_log_index`; in particular the tile
(its `owner_id`, `init_state`, kind and target) is unchanged. -/
theorem c7_theorem (s : GameState) (c : NodeCoord) (t : Node) (o ts i : Nat)
    (h : hfind s.nodes c = some t) :
    s.process_event (.NodeInitializationStarted c o ts) i
      = { s with last_applied_log_index := i } ∧
    hfind (s.process_event (.NodeInitializationStarted c o ts) i).nodes c = some t := by
  constructor <;> simp [GameState.process_event, hcontains, h]

/-- Witness for C7: re-initializing the existing tile at `(0,0)`. -/
theorem c7_witness :
    gsReg.process_event (.NodeInitializationStarted ⟨0, 0⟩ 7 42) 3
      = { gsReg with last_applied_log_index := 3 } ∧
    hfind (gsReg.process_event (.NodeInitializationStarted ⟨0, 0⟩ 7 42) 3).nodes ⟨0, 0⟩
      = some targetTile00 :=
  c7_theorem gsReg ⟨0, 0⟩ targetTile00 7 42 3 (by decide)

/-- **C10.** Frame effect on absent coords: `SetNodeTarget` and `NodeCaptured`
for a coord with no tile change nothing but `last_applied_log_index` (the
reducer is a total function, so it cannot fail). -/
theorem c10_theorem (s : GameState) (c : NodeCoord) (tgt : Option AttackTarget) (o ts i : Nat)
    (h : hfind s.nodes c = none) :
    s.process_event (.SetNodeTarget c tgt ts) i = { s with last_applied_log_index := i } ∧
    s.process_event (.NodeCaptured c o ts) i = { s with last_applied_log_index := i } := by
  constructor <;> simp [GameState.process_event, h]

/-- Witness for C10 on the empty state. -/
theorem c10_witness :
    GameState.new.process_event (.SetNodeTarget ⟨0, 0⟩ none 3) 1
      = { GameState.new with last_applied_log_index := 1 } ∧
    GameState.new.process_event (.NodeCaptured ⟨0, 0⟩ 9 3) 1
      = { GameState.new with last_applied_log_index := 1 } :=
  c10_theorem GameState.new ⟨0, 0⟩ none 9 3 1 rfl

/-- **C1 counterexample.** The claim fails: applying `NodeCaptured{(0,0), 1}`
to a state whose tile at `(0,0)` already has `owner_id = 1` is *not* a no-op.
Here the tile is a Capital with a live target: the event clears
`current_target`, demotes the tile, marks player 1 dead and sets `game_over`. -/
theorem c1_counterexample :
    hfind gsSelfCap.nodes ⟨0, 0⟩ = some tile00Cap ∧
    tile00Cap.owner_id = 1 ∧
    hfind (gsSelfCap.process_event (.NodeCaptured ⟨0, 0⟩ 1 5) 1).nodes ⟨0, 0⟩
      ≠ hfind gsSelfCap.nodes ⟨0, 0⟩ ∧
    (gsSelfCap.process_event (.NodeCaptured ⟨0, 0⟩ 1 5) 1).players ≠ gsSelfCap.players ∧
    (gsSelfCap.process_event (.NodeCaptured ⟨0, 0⟩ 1 5) 1).game_over ≠ gsSelfCap.game_over := by
  decide

/-- **C1 (amended).** A `NodeCaptured` event whose `new_owner_id` equals the
tile's current `owner_id` is a no-op (apart from `last_applied_log_index`)
precisely in the benign case: the tile is not a Capital and its
`current_target` is already `None`.  (In general the event still clears the
target, and on a Capital it also kills the owner, demotes the tile, and may
set `game_over`.) -/
theorem c1_theorem (s : GameState) (c : NodeCoord) (t : Node) (o ts i : Nat)
    (h : hfind s.nodes c = some t) (ho : t.owner_id = o)
    (hk : t.node_type ≠ NodeType.Capital) (htg : t.current_target = none) :
    s.process_event (.NodeCaptured c o ts) i = { s with last_applied_log_index := i } := by
  have hnode : ({ t with owner_id := o, current_target := none } : Node) = t := by
    cases t
    simp_all
  simp [GameState.process_event, h, hnode, hk, hinsert_find_self _ _ _ h]

/-- Witness for C1 (amended): a Regular tile with no target, captured by its
own owner. -/
theorem c1_witness :
    gsReg.process_event (.NodeCaptured ⟨0, 0⟩ 1 5) 3
      = { gsReg with last_applied_log_index := 3 } :=
  c1_theorem gsReg ⟨0, 0⟩ targetTile00 1 5 3 (by decide) (by decide) (by decide) (by decide)

/-- One-step monotonicity of `game_over`: no event arm ever writes `false`. -/
theorem process_event_game_over_mono (s : GameState) (e : GameEvent) (i : Nat)
    (h : s.game_over = true) : (s.process_event e i).game_over = true := by
  cases e <;> simp only [GameState.process_event] <;> (repeat split) <;>
    first
    | rfl
    | exact h

/-- Monotonicity of `game_over` along any replayed log suffix. -/
theorem applyLog_game_over_mono (l : List (GameEvent × Nat)) (s : GameState)
    (h : s.game_over = true) : (applyLog s l).game_over = true := by
  induction l generalizing s with
  | nil => exact h
  | cons p rest ih =>
    exact ih _ (process_event_game_over_mono s p.1 p.2 h)

/-- Only the `NodeCaptured` arm can change `game_over`. -/
theorem process_event_game_over_of_capture (s : GameState) (e : GameEvent) (i : Nat)
    (h : (s.process_event e i).game_over = true) :
    s.game_over = true ∨ ∃ c o ts, e = .NodeCaptured c o ts := by
  cases e with
  | NodeCaptured c o ts => exact Or.inr ⟨c, o, ts, rfl⟩
  | _ =>
    refine Or.inl ?_
    revert h
    simp only [GameState.process_event]
    (repeat split) <;> exact fun x => x

/-- Exact characterization of `game_over` after a `NodeCaptured` event: it is
true iff it already was, or the captured coord held a Capital tile and at most
one player is alive immediately afterwards. -/
theorem process_event_capture_game_over_iff (s : GameState) (c : NodeCoord) (o ts i : Nat) :
    (s.process_event (.NodeCaptured c o ts) i).game_over = true ↔
      (s.game_over = true ∨
        ∃ n, hfind s.nodes c = some n ∧ n.node_type = NodeType.Capital ∧
          GameState.alive_count (s.process_event (.NodeCaptured c o ts) i).players ≤ 1) := by
  cases hn : hfind s.nodes c with
  | none => simp [GameState.process_event, hn]
  | some n =>
    by_cases hcap : n.node_type = NodeType.Capital
    · simp only [GameState.process_event, hn, hcap, if_pos]
      split <;> rename_i halive <;> simp_all
    · simp [GameState.process_event, hn, hcap]

/-- **C3 counterexample.** The "iff" direction of the claim fails: on the
empty state, a `NodeCaptured` event leaves at most one alive player (zero),
yet `game_over` stays false, because the captured coord holds no tile. -/
theorem c3_counterexample :
    GameState.alive_count
        (GameState.new.process_event (.NodeCaptured ⟨0, 0⟩ 1 0) 1).players ≤ 1 ∧
    (GameState.new.process_event (.NodeCaptured ⟨0, 0⟩ 1 0) 1).game_over = false := by
  decide

/-- **C3 (amended).** `game_over` is monotone along any event sequence; it
transitions false→true only on a `NodeCaptured` event; and a `NodeCaptured`
event yields `game_over = true` iff it already was true, or the captured
coord held a Capital tile and at most one player is alive immediately after
the event. -/
theorem c3_theorem :
    (∀ (l : List (GameEvent × Nat)) (s : GameState),
        s.game_over = true → (applyLog s l).game_over = true) ∧
    (∀ (s : GameState) (e : GameEvent) (i : Nat),
        (s.process_event e i).game_over = true →
          s.game_over = true ∨ ∃ c o ts, e = .NodeCaptured c o ts) ∧
    (∀ (s : GameState) (c : NodeCoord) (o ts i : Nat),
        (s.process_event (.NodeCaptured c o ts) i).game_over = true ↔
          (s.game_over = true ∨
            ∃ n, hfind s.nodes c = some n ∧ n.node_type = NodeType.Capital ∧
              GameState.alive_count
                  (s.process_event (.NodeCaptured c o ts) i).players ≤ 1)) :=
  ⟨fun l s h => applyLog_game_over_mono l s h,
   fun s e i h => process_event_game_over_of_capture s e i h,
   fun s c o ts i => process_event_capture_game_over_iff s c o ts i⟩

/-- Witness for C3: monotonicity exercised on a concrete already-over state,
and the capture characterization exercised on a real capital capture. -/
theorem c3_witness :
    (applyLog { GameState.new with game_over := true } demoLog).game_over = true ∧
    (gsSelfCap.process_event (.NodeCaptured ⟨0, 0⟩ 2 9) 4).game_over = true :=
  ⟨c3_theorem.1 demoLog { GameState.new with game_over := true } rfl,
   (c3_theorem.2.2 gsSelfCap ⟨0, 0⟩ 2 9 4).mpr
     (Or.inr ⟨tile00Cap, by decide, by decide, by decide⟩)⟩

/-- **C9 counterexample.** The claim quantifies over *every* non-adjacent
attack request, but when the attacker tile does not exist the handler's
earlier existence check fires first: the status is still 400 and nothing is
proposed, yet the message is "Attacker node … does not exist", not
"Nodes are not adjacent". -/
theorem c9_counterexample :
    NodeCoord.distance ⟨0, 0⟩ ⟨2, 0⟩ ≠ 1 ∧
    (handle_attack_command true GameState.new ⟨⟨0, 0⟩, ⟨2, 0⟩⟩ 7).status = 400 ∧
    (handle_attack_command true GameState.new ⟨⟨0, 0⟩, ⟨2, 0⟩⟩ 7).message
      ≠ "Nodes are not adjacent" ∧
    (handle_attack_command true GameState.new ⟨⟨0, 0⟩, ⟨2, 0⟩⟩ 7).proposals = [] := by
  decide

/-- **C9 (amended).** On the leader, an attack request whose attacker tile
exists and whose coords are at hex distance ≠ 1 is rejected with status 400
and the message "Nodes are not adjacent", and no event is proposed (hence the
game state is untouched). -/
theorem c9_theorem (gs : GameState) (req : AttackRequest) (ts : Nat)
    (hex : hcontains gs.nodes req.node_coord = true)
    (hna : NodeCoord.distance req.node_coord req.target_coord ≠ 1) :
    handle_attack_command true gs req ts =
      { status := 400, success := false, message := "Nodes are not adjacent",
        proposals := [] } := by
  simp [handle_attack_command, hex, NodeCoord.is_adjacent, hna]

/-- Witness for C9 (amended): `(0,0)` exists and attacks `(2,0)` at distance 2. -/
theorem c9_witness :
    handle_attack_command true gsReg ⟨⟨0, 0⟩, ⟨2, 0⟩⟩ 7 =
      { status := 400, success := false, message := "Nodes are not adjacent",
        proposals := [] } :=
  c9_theorem gsReg ⟨⟨0, 0⟩, ⟨2, 0⟩⟩ 7 (by decide) (by decide)

/-- **C8 counterexample.** With only tile `(0,0)` present, an attack from
`(0,0)` on `(1,0)` proposes only *five* `NodeInitializationStarted` events,
not six: the handler filters out neighbors that already exist in the state,
and `(0,0)` itself is a neighbor of `(1,0)`. -/
theorem c8_counterexample :
    gsReg.nodes = [(⟨0, 0⟩, targetTile00)] ∧
    ((handle_attack_command true gsReg ⟨⟨0, 0⟩, ⟨1, 0⟩⟩ 7).proposals.filter
        (fun e => match e with
          | GameEvent.NodeInitializationStarted _ _ _ => true
          | _ => false)).length = 5 := by
  decide

/-- **C8 (amended).** On the leader, a valid adjacent attack on an absent
target proposes one `NodeInitializationStarted` (owner 0) for each neighbor
of the target that is *absent* from the game state — in source array order —
followed by one `SetNodeTarget{node_coord → Coordinate(target_coord)}`; in
the spec's scenario (only `(0,0)` present, attack on `(1,0)`) that is five
initialization proposals, not six. -/
theorem c8_theorem (gs : GameState) (req : AttackRequest) (ts : Nat)
    (hex : hcontains gs.nodes req.node_coord = true)
    (hadj : req.node_coord.is_adjacent req.target_coord = true)
    (habs : hcontains gs.nodes req.target_coord = false) :
    (handle_attack_command true gs req ts).proposals
      = ((req.target_coord.neighbors.filter (fun nb => !(hcontains gs.nodes nb))).map
          (fun nb => GameEvent.NodeInitializationStarted nb 0 ts))
        ++ [GameEvent.SetNodeTarget req.node_coord
              (some (.Coordinate req.target_coord)) ts] ∧
    (handle_attack_command true gs req ts).status = 200 := by
  constructor <;> simp [handle_attack_command, hex, hadj, habs]

/-- Witness for C8 (amended): the spec's lazy-init scenario. -/
theorem c8_witness :
    (handle_attack_command true gsReg ⟨⟨0, 0⟩, ⟨1, 0⟩⟩ 7).proposals
      = (((⟨1, 0⟩ : NodeCoord).neighbors.filter
            (fun nb => !(hcontains gsReg.nodes nb))).map
          (fun nb => GameEvent.NodeInitializationStarted nb 0 7))
        ++ [GameEvent.SetNodeTarget ⟨0, 0⟩ (some (.Coordinate ⟨1, 0⟩)) 7] ∧
    (handle_attack_command true gsReg ⟨⟨0, 0⟩, ⟨1, 0⟩⟩ 7).status = 200 :=
  c8_theorem gsReg ⟨⟨0, 0⟩, ⟨1, 0⟩⟩ 7 (by decide) (by decide) (by decide)

/-- The reducer always records the log index it was called with. -/
theorem process_event_last (s : GameState) (e : GameEvent) (i : Nat) :
    (s.process_event e i).last_applied_log_index = i := by
  cases e <;> simp only [GameState.process_event] <;> (repeat split) <;> rfl

/-- The incoming `last_applied_log_index` is dead: the reducer overwrites it
before reading anything. -/
theorem process_event_erase_last (s : GameState) (j : Nat) (e : GameEvent) (i : Nat) :
    ({ s with last_applied_log_index := j } : GameState).process_event e i
      = s.process_event e i := rfl

/-- The log index parameter only lands in `last_applied_log_index`; every
other output field is independent of it. -/
theorem process_event_index_shift (s : GameState) (e : GameEvent) (i j : Nat) :
    s.process_event e i
      = { s.process_event e j with last_applied_log_index := i } := by
  cases e with
  | PlayerJoin pid name cap ip ic ts => cases ic <;> rfl
  | SetNodeTarget nc tgt ts =>
    cases hn : hfind s.nodes nc <;> simp [GameState.process_event, hn]
  | NodeCaptured nc no ts =>
    cases hn : hfind s.nodes nc with
    | none => simp [GameState.process_event, hn]
    | some node =>
      by_cases hcap : node.node_type = NodeType.Capital
      · simp only [GameState.process_event, hn, hcap, if_pos]
        split <;> split <;> rfl
      · simp [GameState.process_event, hn, hcap]
  | NodeMetricsReport nc bw pl ts => rfl
  | NodeInitializationStarted nc o ts =>
    by_cases hc : hcontains s.nodes nc <;> simp [GameState.process_event, hc]
  | NodeInitializationComplete nc ip ts =>
    cases hn : hfind s.nodes nc <;> simp [GameState.process_event, hn]

theorem eqExceptLast_refl (s : GameState) : eqExceptLast s s :=
  ⟨rfl, rfl, rfl, rfl, rfl, rfl⟩

/-- Two states agreeing except on the index are the same state up to an index
overwrite. -/
theorem eqExceptLast_eq (s s' : GameState) (hs : eqExceptLast s s') :
    s' = { s with last_applied_log_index := s'.last_applied_log_index } := by
  cases s
  cases s'
  obtain ⟨h1, h2, h3, h4, h5, h6⟩ := hs
  simp_all [eqExceptLast]

theorem eqExceptLast_update (a b : GameState) (n : Nat) (h : eqExceptLast a b) :
    eqExceptLast a { b with last_applied_log_index := n } := h

/-- Congruence of one reducer step under `eqExceptLast`, with arbitrary
indices on the two sides. -/
theorem process_event_state_cong (s s' : GameState) (h : eqExceptLast s s')
    (e : GameEvent) (i j : Nat) :
    eqExceptLast (s.process_event e i) (s'.process_event e j) := by
  have h2 : s'.process_event e j = s.process_event e j := by
    rw [eqExceptLast_eq s s' h]
    exact process_event_erase_last s s'.last_applied_log_index e j
  rw [h2, process_event_index_shift s e j i]
  exact eqExceptLast_update _ _ _ (eqExceptLast_refl _)

/-- Replaying the same event sequence with different index sequences yields
the same state except for `last_applied_log_index`. -/
theorem applyLog_eqExceptLast (l l' : List (GameEvent × Nat)) (s s' : GameState)
    (hfst : l.map Prod.fst = l'.map Prod.fst) (hs : eqExceptLast s s') :
    eqExceptLast (applyLog s l) (applyLog s' l') := by
  induction l generalizing l' s s' with
  | nil =>
    cases l' with
    | nil => exact hs
    | cons p' t' => simp at hfst
  | cons p t ih =>
    cases l' with
    | nil => simp at hfst
    | cons p' t' =>
      simp only [List.map_cons, List.cons.injEq] at hfst
      obtain ⟨he, ht⟩ := hfst
      have hstep : eqExceptLast (s.process_event p.1 p.2) (s'.process_event p'.1 p'.2) := by
        rw [← he]
        exact process_event_state_cong s s' hs p.1 p.2 p'.2
      exact ih t' _ _ ht hstep

/-- The final `last_applied_log_index` of a replay is the last index of the
nonempty log (or the starting value). -/
theorem applyLog_last (l : List (GameEvent × Nat)) (s : GameState) :
    (applyLog s l).last_applied_log_index
      = l.foldl (fun _ p => p.2) s.last_applied_log_index := by
  induction l generalizing s with
  | nil => rfl
  | cons p t ih =>
    show (applyLog (s.process_event p.1 p.2) t).last_applied_log_index = _
    rw [ih, process_event_last]
    rfl

/-- Characterization of `apply_to_state_machine`: events accumulate in order
and the game state is the replay of the `Normal` pairs. -/
theorem apply_to_state_machine_char (entries : List LogEntry) (sm : GameStateMachine) :
    (apply_to_state_machine sm entries).events
        = sm.events ++ (normPairs entries).map Prod.fst ∧
    (apply_to_state_machine sm entries).game_state
        = applyLog sm.game_state (normPairs entries) := by
  induction entries generalizing sm with
  | nil => simp [apply_to_state_machine, normPairs, applyLog]
  | cons en rest ih =>
    cases hp : en.payload with
    | none =>
      have step : apply_to_state_machine sm (en :: rest)
          = apply_to_state_machine sm rest := by
        simp [apply_to_state_machine, hp]
      rw [step]
      have hnp : normPairs (en :: rest) = normPairs rest := by
        simp [normPairs, hp]
      rw [hnp]
      exact ih sm
    | some ev =>
      have step : apply_to_state_machine sm (en :: rest)
          = apply_to_state_machine
              { game_state := sm.game_state.process_event ev en.index,
                events := sm.events ++ [ev],
                last_applied_log_index := en.index } rest := by
        simp [apply_to_state_machine, hp]
      have hnp : normPairs (en :: rest) = (ev, en.index) :: normPairs rest := by
        simp [normPairs, hp]
      rw [step, hnp]
      obtain ⟨ihe, ihg⟩ := ih { game_state := sm.game_state.process_event ev en.index,
                                events := sm.events ++ [ev],
                                last_applied_log_index := en.index }
      refine ⟨?_, ?_⟩
      · rw [ihe]; simp
      · rw [ihg]; rfl

/-- The event components of the install-side replay pairs are the snapshot's
events themselves. -/
theorem enum_replay_map_fst (evs : List GameEvent) :
    ((evs.enum.map (fun p => (p.2, p.1 + 1))).map Prod.fst) = evs := by
  rw [List.map_map]
  have : (Prod.fst ∘ fun p : Nat × GameEvent => (p.2, p.1 + 1)) = Prod.snd := rfl
  rw [this]
  exact List.enum_map_snd evs

/-- Folding out the final index of the install-side replay pairs. -/
theorem foldl_snd_enumFrom (evs : List GameEvent) (k acc : Nat) :
    ((List.enumFrom k evs).map (fun p => (p.2, p.1 + 1))).foldl (fun _ p => p.2) acc
      = if evs.isEmpty then acc else k + evs.length := by
  induction evs generalizing k acc with
  | nil => rfl
  | cons e t ih =>
    show ((List.enumFrom (k + 1) t).map (fun p => (p.2, p.1 + 1))).foldl
        (fun _ p => p.2) (k + 1) = _
    rw [ih]
    cases t with
    | nil => rfl
    | cons b t2 => simp [List.length_cons]; omega

/-- After the install-side replay, `GameState.last_applied_log_index` is the
number of snapshot events. -/
theorem replay_last (evs : List GameEvent) :
    (applyLog GameState.new (evs.enum.map (fun p => (p.2, p.1 + 1)))).last_applied_log_index
      = evs.length := by
  rw [applyLog_last]
  show ((List.enumFrom 0 evs).map (fun p => (p.2, p.1 + 1))).foldl (fun _ p => p.2) 0 = _
  rw [foldl_snd_enumFrom]
  cases evs <;> simp

/-- Two `GameState`s are equal iff they agree except on the index and on the
index. -/
theorem gameState_eq_of (a b : GameState) (h : eqExceptLast a b)
    (hl : a.last_applied_log_index = b.last_applied_log_index) : a = b := by
  cases a
  cases b
  obtain ⟨h1, h2, h3, h4, h5, h6⟩ := h
  simp_all

/-- **C6 counterexample.** The round-trip is not the identity on
`last_applied_log_index`: a state machine that applied a blank entry at index
1 and a Normal entry at index 2 has `game_state.last_applied_log_index = 2`,
but installing its own snapshot rebuilds the state by replaying the single
event at index 1. -/
theorem c6_counterexample :
    (install_snapshot (build_snapshot sm6)).game_state.last_applied_log_index = 1 ∧
    sm6.game_state.last_applied_log_index = 2 ∧
    (install_snapshot (build_snapshot sm6)).game_state ≠ sm6.game_state := by
  decide

/-- **C6 (amended).** For every state machine `sm` built by
`apply_to_state_machine` from fresh, installing `build_snapshot(sm)` on a
fresh empty replica reproduces `sm`'s events and last-applied index exactly,
and reproduces `sm.game_state` in every field *except*
`last_applied_log_index`, which becomes the number of snapshot events (the
installer replays at indices `1..n` regardless of the original log indices).
The round-trip is the identity on the whole `GameState` exactly when the
applied Normal entries carried consecutive indices `1..n`. -/
theorem c6_theorem (entries : List LogEntry) (sm : GameStateMachine)
    (hsm : sm = apply_to_state_machine GameStateMachine.new entries) :
    (install_snapshot (build_snapshot sm)).events = sm.events ∧
    (install_snapshot (build_snapshot sm)).last_applied_log_index
      = sm.last_applied_log_index ∧
    (install_snapshot (build_snapshot sm)).game_state
      = { sm.game_state with last_applied_log_index := sm.events.length } := by
  refine ⟨rfl, rfl, ?_⟩
  obtain ⟨hev, hgs⟩ := apply_to_state_machine_char entries GameStateMachine.new
  have hev2 : sm.events = (normPairs entries).map Prod.fst := by
    rw [hsm, hev]; rfl
  have hgs2 : sm.game_state = applyLog GameState.new (normPairs entries) := by
    rw [hsm]; exact hgs
  apply gameState_eq_of
  · show eqExceptLast
      (applyLog GameState.new (sm.events.enum.map (fun p => (p.2, p.1 + 1)))) _
    have hx : eqExceptLast
        (applyLog GameState.new (sm.events.enum.map (fun p => (p.2, p.1 + 1))))
        (applyLog GameState.new (normPairs entries)) := by
      apply applyLog_eqExceptLast
      · rw [enum_replay_map_fst, hev2]
      · exact eqExceptLast_refl _
    rw [hgs2]
    exact eqExceptLast_update _ _ _ hx
  · show (applyLog GameState.new
        (sm.events.enum.map (fun p => (p.2, p.1 + 1)))).last_applied_log_index = _
    rw [replay_last]

/-- Witness for C6 (amended) on the concrete two-entry log of `sm6`. -/
theorem c6_witness :
    (install_snapshot (build_snapshot sm6)).events = sm6.events ∧
    (install_snapshot (build_snapshot sm6)).last_applied_log_index
      = sm6.last_applied_log_index ∧
    (install_snapshot (build_snapshot sm6)).game_state
      = { sm6.game_state with last_applied_log_index := sm6.events.length } :=
  c6_theorem [⟨1, none⟩, ⟨2, some ev6⟩] sm6 rfl

/-- **C5 (code bug).** The spec mandates that the recorded winner among
several attackers be the one with the lowest `(q, r)`-lexicographic coord,
but `GameLogic::tick` takes `attackers[0]` in `HashMap` iteration order.
With attackers at `(1,0)` (owner 22) and `(0,1)` (owner 11) both targeting
`(0,0)`, the lex-lowest attacker is owner 11, yet under the iteration order
`[(1,0), (0,1)]` the evaluator records owner 22 in the tracker and proposes
the capture with `new_owner_id = 22`; under the opposite iteration order it
records owner 11 — the outcome depends on map iteration order. -/
theorem c5_theorem :
    attackersOf [attacker22, attacker11, targetTile00] ⟨0, 0⟩ = [attacker22, attacker11] ∧
    (GameLogic.tick GameConfig.default [attacker22, attacker11, targetTile00]
        metricsHi 0 []).tracker = [(⟨0, 0⟩, (22, 0))] ∧
    (runTicks GameConfig.default [attacker22, attacker11, targetTile00]
        metricsHi [] [0, 10]).events = [.NodeCaptured ⟨0, 0⟩ 22 10] ∧
    (GameLogic.tick GameConfig.default [attacker11, attacker22, targetTile00]
        metricsHi 0 []).tracker = [(⟨0, 0⟩, (11, 0))] ∧
    attacker11.coord.q < attacker22.coord.q ∧
    attacker11.owner_id = 11 ∧ attacker22.owner_id = 22 := by
  decide

theorem capturesFor_append (c : NodeCoord) (a b : List GameEvent) :
    capturesFor c (a ++ b) = capturesFor c a ++ capturesFor c b := by
  simp [capturesFor, List.filter_append]

theorem capturesFor_capture_self (c : NodeCoord) (w t : Nat) :
    capturesFor c [.NodeCaptured c w t] = [.NodeCaptured c w t] := by
  simp [capturesFor]

theorem capturesFor_capture_ne (c d : NodeCoord) (w t : Nat) (h : d ≠ c) :
    capturesFor c [.NodeCaptured d w t] = [] := by
  simp [capturesFor, h]

/-- Processing a node whose coord differs from `c` neither touches the
tracker entry for `c` nor emits a capture for `c`. -/
theorem tickNode_ne (config : GameConfig) (ns : List Node)
    (ms : List (NodeCoord × NodeMetrics)) (now : Nat) (acc : TickAcc) (d : Node)
    (c : NodeCoord) (hd : d.coord ≠ c) :
    hfind (tickNode config ns ms now acc d).tracker c = hfind acc.tracker c ∧
    capturesFor c (tickNode config ns ms now acc d).events = capturesFor c acc.events := by
  cases hA : attackersOf ns d.coord with
  | nil => simp [tickNode, hA, hfind_herase_ne _ _ _ hd]
  | cons a rest =>
    cases hm : hfind ms d.coord with
    | none => simp [tickNode, hA, hm]
    | some m =>
      by_cases hov : config.overload_threshold ≤ m.packet_loss
      · cases htr : hfind acc.tracker d.coord with
        | some e =>
          by_cases hdur : config.overload_duration_secs ≤ now - e.2
          · simp [tickNode, hA, hm, hov, htr, hdur, hfind_herase_ne _ _ _ hd,
              capturesFor_append, capturesFor_capture_ne _ _ _ _ hd]
          · simp [tickNode, hA, hm, hov, htr, hdur]
        | none =>
          by_cases h0 : config.overload_duration_secs = 0
          · simp [tickNode, hA, hm, hov, htr, h0, capturesFor_append,
              capturesFor_capture_ne _ _ _ _ hd, hfind_herase_ne _ _ _ hd,
              hfind_hinsert_ne _ _ _ _ hd]
          · simp [tickNode, hA, hm, hov, htr, h0, hfind_hinsert_ne _ _ _ _ hd]
      · simp [tickNode, hA, hm, hov, hfind_herase_ne _ _ _ hd]

/-- Folding the per-node loop over nodes whose coords all differ from `c`
preserves both the tracker entry for `c` and the captures for `c`. -/
theorem foldl_tickNode_ne (config : GameConfig) (ns : List Node)
    (ms : List (NodeCoord × NodeMetrics)) (now : Nat) (c : NodeCoord)
    (l : List Node) (hl : ∀ n ∈ l, n.coord ≠ c) (acc : TickAcc) :
    hfind (l.foldl (tickNode config ns ms now) acc).tracker c = hfind acc.tracker c ∧
    capturesFor c (l.foldl (tickNode config ns ms now) acc).events
      = capturesFor c acc.events := by
  induction l generalizing acc with
  | nil => exact ⟨rfl, rfl⟩
  | cons d t ih =>
    rw [List.foldl_cons]
    obtain ⟨h1, h2⟩ := tickNode_ne config ns ms now acc d c (hl d (by simp))
    obtain ⟨h3, h4⟩ := ih (fun n hn => hl n (by simp [hn])) (tickNode config ns ms now acc d)
    exact ⟨h3.trans h1, h4.trans h2⟩

/-- Processing the attacked node with no pending tracker entry, overloaded
metrics and a positive capture window: the tracker is seeded with the first
attacker and the current time; no capture yet. -/
theorem tickNode_self_start (config : GameConfig) (ns : List Node)
    (ms : List (NodeCoord × NodeMetrics)) (now : Nat) (acc : TickAcc)
    (nc a : Node) (rest : List Node) (met : NodeMetrics)
    (hA : attackersOf ns nc.coord = a :: rest)
    (hm : hfind ms nc.coord = some met)
    (hov : config.overload_threshold ≤ met.packet_loss)
    (htr : hfind acc.tracker nc.coord = none)
    (hdur : 0 < config.overload_duration_secs) :
    tickNode config ns ms now acc nc
      = { acc with tracker := hinsert acc.tracker nc.coord (a.owner_id, now) } := by
  have h0 : ¬ (config.overload_duration_secs = 0) := by omega
  simp [tickNode, hA, hm, hov, htr, h0]

/-- Processing the attacked node with a pending unexpired tracker entry:
nothing changes. -/
theorem tickNode_self_pending (config : GameConfig) (ns : List Node)
    (ms : List (NodeCoord × NodeMetrics)) (now : Nat) (acc : TickAcc)
    (nc a : Node) (rest : List Node) (met : NodeMetrics) (w t0 : Nat)
    (hA : attackersOf ns nc.coord = a :: rest)
    (hm : hfind ms nc.coord = some met)
    (hov : config.overload_threshold ≤ met.packet_loss)
    (htr : hfind acc.tracker nc.coord = some (w, t0))
    (hlt : now - t0 < config.overload_duration_secs) :
    tickNode config ns ms now acc nc = acc := by
  have h0 : ¬ (config.overload_duration_secs ≤ now - t0) := by omega
  simp [tickNode, hA, hm, hov, htr, h0]

/-- Processing the attacked node with a pending expired tracker entry: the
capture is emitted for the tracked attacker and the entry is cleared. -/
theorem tickNode_self_capture (config : GameConfig) (ns : List Node)
    (ms : List (NodeCoord × NodeMetrics)) (now : Nat) (acc : TickAcc)
    (nc a : Node) (rest : List Node) (met : NodeMetrics) (w t0 : Nat)
    (hA : attackersOf ns nc.coord = a :: rest)
    (hm : hfind ms nc.coord = some met)
    (hov : config.overload_threshold ≤ met.packet_loss)
    (htr : hfind acc.tracker nc.coord = some (w, t0))
    (hge : config.overload_duration_secs ≤ now - t0) :
    tickNode config ns ms now acc nc
      = { events := acc.events ++ [.NodeCaptured nc.coord w now],
          tracker := herase acc.tracker nc.coord } := by
  simp [tickNode, hA, hm, hov, htr, hge]

/-- Processing the attacked node when the metrics are below the threshold:
the tracker entry is cleared, no capture. -/
theorem tickNode_self_reset (config : GameConfig) (ns : List Node)
    (ms : List (NodeCoord × NodeMetrics)) (now : Nat) (acc : TickAcc)
    (nc a : Node) (rest : List Node) (met : NodeMetrics)
    (hA : attackersOf ns nc.coord = a :: rest)
    (hm : hfind ms nc.coord = some met)
    (hlo : met.packet_loss < config.overload_threshold) :
    tickNode config ns ms now acc nc
      = { acc with tracker := herase acc.tracker nc.coord } := by
  have h0 : ¬ (config.overload_threshold ≤ met.packet_loss) := not_le.mpr hlo
  simp [tickNode, hA, hm, h0]

/-- A tick over the grid `l1 ++ nc :: l2` (all other coords distinct from the
attacked node's) with overloaded metrics and no pending tracker entry: the
window opens at `now` for the first attacker; no capture is proposed. -/
theorem tick_c_start (config : GameConfig) (l1 l2 : List Node) (nc a : Node)
    (rest : List Node) (met : NodeMetrics) (ms : List (NodeCoord × NodeMetrics))
    (now : Nat) (tr : List (NodeCoord × (Nat × Nat)))
    (hl1 : ∀ n ∈ l1, n.coord ≠ nc.coord) (hl2 : ∀ n ∈ l2, n.coord ≠ nc.coord)
    (hA : attackersOf (l1 ++ nc :: l2) nc.coord = a :: rest)
    (hm : hfind ms nc.coord = some met)
    (hov : config.overload_threshold ≤ met.packet_loss)
    (htr : hfind tr nc.coord = none)
    (hdur : 0 < config.overload_duration_secs) :
    hfind (GameLogic.tick config (l1 ++ nc :: l2) ms now tr).tracker nc.coord
      = some (a.owner_id, now) ∧
    capturesFor nc.coord (GameLogic.tick config (l1 ++ nc :: l2) ms now tr).events = [] := by
  have hunfold : GameLogic.tick config (l1 ++ nc :: l2) ms now tr
      = l2.foldl (tickNode config (l1 ++ nc :: l2) ms now)
          (tickNode config (l1 ++ nc :: l2) ms now
            (l1.foldl (tickNode config (l1 ++ nc :: l2) ms now)
              { events := [], tracker := tr }) nc) := by
    simp [GameLogic.tick, List.foldl_append]
  obtain ⟨hf1, hc1⟩ := foldl_tickNode_ne config (l1 ++ nc :: l2) ms now nc.coord l1 hl1
    { events := [], tracker := tr }
  have hstep := tickNode_self_start config (l1 ++ nc :: l2) ms now
    (l1.foldl (tickNode config (l1 ++ nc :: l2) ms now) { events := [], tracker := tr })
    nc a rest met hA hm hov (by rw [hf1]; exact htr) hdur
  obtain ⟨hf2, hc2⟩ := foldl_tickNode_ne config (l1 ++ nc :: l2) ms now nc.coord l2 hl2
    (tickNode config (l1 ++ nc :: l2) ms now
      (l1.foldl (tickNode config (l1 ++ nc :: l2) ms now) { events := [], tracker := tr }) nc)
  rw [hunfold]
  refine ⟨?_, ?_⟩
  · rw [hf2, hstep]
    exact hfind_hinsert_self _ _ _
  · rw [hc2, hstep]
    exact hc1

/-- A tick with overloaded metrics and a pending unexpired window: the
tracker entry survives untouched and no capture for the node is proposed. -/
theorem tick_c_pending (config : GameConfig) (l1 l2 : List Node) (nc a : Node)
    (rest : List Node) (met : NodeMetrics) (ms : List (NodeCoord × NodeMetrics))
    (now : Nat) (tr : List (NodeCoord × (Nat × Nat))) (w t0 : Nat)
    (hl1 : ∀ n ∈ l1, n.coord ≠ nc.coord) (hl2 : ∀ n ∈ l2, n.coord ≠ nc.coord)
    (hA : attackersOf (l1 ++ nc :: l2) nc.coord = a :: rest)
    (hm : hfind ms nc.coord = some met)
    (hov : config.overload_threshold ≤ met.packet_loss)
    (htr : hfind tr nc.coord = some (w, t0))
    (hlt : now - t0 < config.overload_duration_secs) :
    hfind (GameLogic.tick config (l1 ++ nc :: l2) ms now tr).tracker nc.coord
      = some (w, t0) ∧
    capturesFor nc.coord (GameLogic.tick config (l1 ++ nc :: l2) ms now tr).events = [] := by
  have hunfold : GameLogic.tick config (l1 ++ nc :: l2) ms now tr
      = l2.foldl (tickNode config (l1 ++ nc :: l2) ms now)
          (tickNode config (l1 ++ nc :: l2) ms now
            (l1.foldl (tickNode config (l1 ++ nc :: l2) ms now)
              { events := [], tracker := tr }) nc) := by
    simp [GameLogic.tick, List.foldl_append]
  obtain ⟨hf1, hc1⟩ := foldl_tickNode_ne config (l1 ++ nc :: l2) ms now nc.coord l1 hl1
    { events := [], tracker := tr }
  have hstep := tickNode_self_pending config (l1 ++ nc :: l2) ms now
    (l1.foldl (tickNode config (l1 ++ nc :: l2) ms now) { events := [], tracker := tr })
    nc a rest met w t0 hA hm hov (by rw [hf1]; exact htr) hlt
  obtain ⟨hf2, hc2⟩ := foldl_tickNode_ne config (l1 ++ nc :: l2) ms now nc.coord l2 hl2
    (tickNode config (l1 ++ nc :: l2) ms now
      (l1.foldl (tickNode config (l1 ++ nc :: l2) ms now) { events := [], tracker := tr }) nc)
  rw [hunfold]
  refine ⟨?_, ?_⟩
  · rw [hf2, hstep, hf1]
    exact htr
  · rw [hc2, hstep]
    exact hc1

/-- A tick with overloaded metrics and an expired window: exactly one capture
for the node is proposed, for the tracked attacker at the tick's time, and the
tracker entry is cleared. -/
theorem tick_c_capture (config : GameConfig) (l1 l2 : List Node) (nc a : Node)
    (rest : List Node) (met : NodeMetrics) (ms : List (NodeCoord × NodeMetrics))
    (now : Nat) (tr : List (NodeCoord × (Nat × Nat))) (w t0 : Nat)
    (hl1 : ∀ n ∈ l1, n.coord ≠ nc.coord) (hl2 : ∀ n ∈ l2, n.coord ≠ nc.coord)
    (hA : attackersOf (l1 ++ nc :: l2) nc.coord = a :: rest)
    (hm : hfind ms nc.coord = some met)
    (hov : config.overload_threshold ≤ met.packet_loss)
    (htr : hfind tr nc.coord = some (w, t0))
    (hge : config.overload_duration_secs ≤ now - t0) :
    hfind (GameLogic.tick config (l1 ++ nc :: l2) ms now tr).tracker nc.coord = none ∧
    capturesFor nc.coord (GameLogic.tick config (l1 ++ nc :: l2) ms now tr).events
      = [.NodeCaptured nc.coord w now] := by
  have hunfold : GameLogic.tick config (l1 ++ nc :: l2) ms now tr
      = l2.foldl (tickNode config (l1 ++ nc :: l2) ms now)
          (tickNode config (l1 ++ nc :: l2) ms now
            (l1.foldl (tickNode config (l1 ++ nc :: l2) ms now)
              { events := [], tracker := tr }) nc) := by
    simp [GameLogic.tick, List.foldl_append]
  obtain ⟨hf1, hc1⟩ := foldl_tickNode_ne config (l1 ++ nc :: l2) ms now nc.coord l1 hl1
    { events := [], tracker := tr }
  have hstep := tickNode_self_capture config (l1 ++ nc :: l2) ms now
    (l1.foldl (tickNode config (l1 ++ nc :: l2) ms now) { events := [], tracker := tr })
    nc a rest met w t0 hA hm hov (by rw [hf1]; exact htr) hge
  obtain ⟨hf2, hc2⟩ := foldl_tickNode_ne config (l1 ++ nc :: l2) ms now nc.coord l2 hl2
    (tickNode config (l1 ++ nc :: l2) ms now
      (l1.foldl (tickNode config (l1 ++ nc :: l2) ms now) { events := [], tracker := tr }) nc)
  rw [hunfold]
  refine ⟨?_, ?_⟩
  · rw [hf2, hstep]
    exact hfind_herase_self _ _
  · rw [hc2, hstep]
    rw [capturesFor_append, hc1, capturesFor_capture_self]
    rfl

/-- A tick whose metrics for the node are below the threshold: the tracker
entry for the node is cleared (whatever it was) and no capture is proposed. -/
theorem tick_c_reset (config : GameConfig) (l1 l2 : List Node) (nc a : Node)
    (rest : List Node) (met : NodeMetrics) (ms : List (NodeCoord × NodeMetrics))
    (now : Nat) (tr : List (NodeCoord × (Nat × Nat)))
    (hl1 : ∀ n ∈ l1, n.coord ≠ nc.coord) (hl2 : ∀ n ∈ l2, n.coord ≠ nc.coord)
    (hA : attackersOf (l1 ++ nc :: l2) nc.coord = a :: rest)
    (hm : hfind ms nc.coord = some met)
    (hlo : met.packet_loss < config.overload_threshold) :
    hfind (GameLogic.tick config (l1 ++ nc :: l2) ms now tr).tracker nc.coord = none ∧
    capturesFor nc.coord (GameLogic.tick config (l1 ++ nc :: l2) ms now tr).events = [] := by
  have hunfold : GameLogic.tick config (l1 ++ nc :: l2) ms now tr
      = l2.foldl (tickNode config (l1 ++ nc :: l2) ms now)
          (tickNode config (l1 ++ nc :: l2) ms now
            (l1.foldl (tickNode config (l1 ++ nc :: l2) ms now)
              { events := [], tracker := tr }) nc) := by
    simp [GameLogic.tick, List.foldl_append]
  obtain ⟨hf1, hc1⟩ := foldl_tickNode_ne config (l1 ++ nc :: l2) ms now nc.coord l1 hl1
    { events := [], tracker := tr }
  have hstep := tickNode_self_reset config (l1 ++ nc :: l2) ms now
    (l1.foldl (tickNode config (l1 ++ nc :: l2) ms now) { events := [], tracker := tr })
    nc a rest met hA hm hlo
  obtain ⟨hf2, hc2⟩ := foldl_tickNode_ne config (l1 ++ nc :: l2) ms now nc.coord l2 hl2
    (tickNode config (l1 ++ nc :: l2) ms now
      (l1.foldl (tickNode config (l1 ++ nc :: l2) ms now) { events := [], tracker := tr }) nc)
  rw [hunfold]
  refine ⟨?_, ?_⟩
  · rw [hf2, hstep]
    exact hfind_herase_self _ _
  · rw [hc2, hstep]
    exact hc1

/-- Shifting the accumulated events out of `runTicks`'s fold. -/
theorem runTicks_shift (config : GameConfig) (ns : List Node)
    (ms : List (NodeCoord × NodeMetrics)) (ts : List Nat) :
    ∀ (E : List GameEvent) (tr : List (NodeCoord × (Nat × Nat))),
    List.foldl
        (fun (acc : TickAcc) (t : Nat) =>
          let r := GameLogic.tick config ns ms t acc.tracker
          { events := acc.events ++ r.events, tracker := r.tracker })
        { events := E, tracker := tr } ts
      = { events := E ++ (runTicks config ns ms tr ts).events,
          tracker := (runTicks config ns ms tr ts).tracker } := by
  induction ts with
  | nil => intro E tr; simp [runTicks]
  | cons t rest ih =>
    intro E tr
    simp only [runTicks, List.foldl_cons]
    rw [ih, ih]
    simp

theorem runTicks_cons (config : GameConfig) (ns : List Node)
    (ms : List (NodeCoord × NodeMetrics)) (tr : List (NodeCoord × (Nat × Nat)))
    (t : Nat) (rest : List Nat) :
    runTicks config ns ms tr (t :: rest)
      = { events := (GameLogic.tick config ns ms t tr).events
            ++ (runTicks config ns ms (GameLogic.tick config ns ms t tr).tracker rest).events,
          tracker :=
            (runTicks config ns ms (GameLogic.tick config ns ms t tr).tracker rest).tracker } :=
  runTicks_shift config ns ms rest (GameLogic.tick config ns ms t tr).events
    (GameLogic.tick config ns ms t tr).tracker

theorem runTicks_append (config : GameConfig) (ns : List Node)
    (ms : List (NodeCoord × NodeMetrics)) (ts1 ts2 : List Nat)
    (tr : List (NodeCoord × (Nat × Nat))) :
    runTicks config ns ms tr (ts1 ++ ts2)
      = { events := (runTicks config ns ms tr ts1).events
            ++ (runTicks config ns ms (runTicks config ns ms tr ts1).tracker ts2).events,
          tracker :=
            (runTicks config ns ms (runTicks config ns ms tr ts1).tracker ts2).tracker } := by
  induction ts1 generalizing tr with
  | nil => rfl
  | cons t ts1 ih =>
    rw [List.cons_append, runTicks_cons config ns ms tr t (ts1 ++ ts2),
        runTicks_cons config ns ms tr t ts1, ih]
    simp [List.append_assoc]

/-- While the overload window stays open and no tick reaches the duration,
the tracker entry is frozen and no capture for the node is emitted. -/
theorem run_pending (config : GameConfig) (l1 l2 : List Node) (nc a : Node)
    (rest : List Node) (met : NodeMetrics) (ms : List (NodeCoord × NodeMetrics))
    (hl1 : ∀ n ∈ l1, n.coord ≠ nc.coord) (hl2 : ∀ n ∈ l2, n.coord ≠ nc.coord)
    (hA : attackersOf (l1 ++ nc :: l2) nc.coord = a :: rest)
    (hm : hfind ms nc.coord = some met)
    (hov : config.overload_threshold ≤ met.packet_loss) :
    ∀ (ts : List Nat) (tr : List (NodeCoord × (Nat × Nat))) (w t0 : Nat),
      hfind tr nc.coord = some (w, t0) →
      (∀ t ∈ ts, t - t0 < config.overload_duration_secs) →
      hfind (runTicks config (l1 ++ nc :: l2) ms tr ts).tracker nc.coord = some (w, t0) ∧
      capturesFor nc.coord (runTicks config (l1 ++ nc :: l2) ms tr ts).events = [] := by
  intro ts
  induction ts with
  | nil => intro tr w t0 htr hts; exact ⟨htr, rfl⟩
  | cons t ts ih =>
    intro tr w t0 htr hts
    obtain ⟨hf, hc⟩ := tick_c_pending config l1 l2 nc a rest met ms t tr w t0
      hl1 hl2 hA hm hov htr (hts t (by simp))
    obtain ⟨hf2, hc2⟩ := ih (GameLogic.tick config (l1 ++ nc :: l2) ms t tr).tracker w t0
      hf (fun x hx => hts x (by simp [hx]))
    rw [runTicks_cons]
    refine ⟨hf2, ?_⟩
    show capturesFor nc.coord
        ((GameLogic.tick config (l1 ++ nc :: l2) ms t tr).events
          ++ (runTicks config (l1 ++ nc :: l2) ms
                (GameLogic.tick config (l1 ++ nc :: l2) ms t tr).tracker ts).events) = []
    rw [capturesFor_append, hc, hc2]
    rfl

/-- **C4.** Capture latency with tracker reset, for the default config
(threshold 20%, window 10 s).  Setting: the grid iterates as
`l1 ++ nc :: l2` with all other coords distinct from `nc.coord`, `nc` has
the single attacker `a`, `ms` reports overloaded loss (`≥ 0.20`) for
`nc.coord`, and `mslo` reports loss below the threshold.  Then
(1) ticking from an empty tracker at times `t0 :: pre`, all within 10 s of
`t0`, emits no capture for `nc.coord` and anchors the window at `(a, t0)`;
(2) the first tick at a time `tk` with `tk − t0 ≥ 10` emits exactly
`NodeCaptured{nc.coord, a.owner_id}` (and nothing for `nc.coord` before it);
(3) a tick whose loss is below 0.20 clears the tracker entry for `nc.coord`
and emits no capture;
(4) from a cleared tracker, the next overloaded tick restarts the window at
its own time `t1`. -/
theorem c4_theorem (l1 l2 : List Node) (nc a : Node) (met metlo : NodeMetrics)
    (ms mslo : List (NodeCoord × NodeMetrics))
    (hl1 : ∀ n ∈ l1, n.coord ≠ nc.coord) (hl2 : ∀ n ∈ l2, n.coord ≠ nc.coord)
    (hatt : attackersOf (l1 ++ nc :: l2) nc.coord = [a])
    (hm : hfind ms nc.coord = some met)
    (hov : GameConfig.default.overload_threshold ≤ met.packet_loss)
    (hm2 : hfind mslo nc.coord = some metlo)
    (hlo : metlo.packet_loss < GameConfig.default.overload_threshold) :
    (∀ (t0 : Nat) (pre : List Nat), (∀ t ∈ pre, t - t0 < 10) →
        capturesFor nc.coord
            (runTicks GameConfig.default (l1 ++ nc :: l2) ms [] (t0 :: pre)).events = [] ∧
        hfind (runTicks GameConfig.default (l1 ++ nc :: l2) ms [] (t0 :: pre)).tracker
            nc.coord = some (a.owner_id, t0)) ∧
    (∀ (t0 tk : Nat) (pre : List Nat), (∀ t ∈ pre, t - t0 < 10) → 10 ≤ tk - t0 →
        capturesFor nc.coord
            (runTicks GameConfig.default (l1 ++ nc :: l2) ms [] ((t0 :: pre) ++ [tk])).events
          = [.NodeCaptured nc.coord a.owner_id tk]) ∧
    (∀ (tr : List (NodeCoord × (Nat × Nat))) (now : Nat),
        hfind (GameLogic.tick GameConfig.default (l1 ++ nc :: l2) mslo now tr).tracker
            nc.coord = none ∧
        capturesFor nc.coord
            (GameLogic.tick GameConfig.default (l1 ++ nc :: l2) mslo now tr).events = []) ∧
    (∀ (tr : List (NodeCoord × (Nat × Nat))) (t1 : Nat),
        hfind tr nc.coord = none →
        hfind (GameLogic.tick GameConfig.default (l1 ++ nc :: l2) ms t1 tr).tracker
            nc.coord = some (a.owner_id, t1)) := by
  have hdur : (0 : Nat) < GameConfig.default.overload_duration_secs := by
    show (0 : Nat) < 10
    omega
  have hwin : ∀ (t0 : Nat) (pre : List Nat), (∀ t ∈ pre, t - t0 < 10) →
      capturesFor nc.coord
          (runTicks GameConfig.default (l1 ++ nc :: l2) ms [] (t0 :: pre)).events = [] ∧
      hfind (runTicks GameConfig.default (l1 ++ nc :: l2) ms [] (t0 :: pre)).tracker
          nc.coord = some (a.owner_id, t0) := by
    intro t0 pre hpre
    obtain ⟨hsf, hsc⟩ := tick_c_start GameConfig.default l1 l2 nc a [] met ms t0 []
      hl1 hl2 hatt hm hov rfl hdur
    obtain ⟨hpf, hpc⟩ := run_pending GameConfig.default l1 l2 nc a [] met ms
      hl1 hl2 hatt hm hov pre
      (GameLogic.tick GameConfig.default (l1 ++ nc :: l2) ms t0 []).tracker
      a.owner_id t0 hsf hpre
    rw [runTicks_cons]
    refine ⟨?_, hpf⟩
    show capturesFor nc.coord
        ((GameLogic.tick GameConfig.default (l1 ++ nc :: l2) ms t0 []).events
          ++ (runTicks GameConfig.default (l1 ++ nc :: l2) ms
                (GameLogic.tick GameConfig.default (l1 ++ nc :: l2) ms t0 []).tracker
                pre).events) = []
    rw [capturesFor_append, hsc, hpc]
    rfl
  refine ⟨hwin, ?_, ?_, ?_⟩
  · intro t0 tk pre hpre htk
    obtain ⟨hwc, hwf⟩ := hwin t0 pre hpre
    obtain ⟨hkf, hkc⟩ := tick_c_capture GameConfig.default l1 l2 nc a [] met ms tk
      (runTicks GameConfig.default (l1 ++ nc :: l2) ms [] (t0 :: pre)).tracker
      a.owner_id t0 hl1 hl2 hatt hm hov hwf htk
    rw [runTicks_append]
    show capturesFor nc.coord
        ((runTicks GameConfig.default (l1 ++ nc :: l2) ms [] (t0 :: pre)).events
          ++ (runTicks GameConfig.default (l1 ++ nc :: l2) ms
                (runTicks GameConfig.default (l1 ++ nc :: l2) ms [] (t0 :: pre)).tracker
                [tk]).events) = _
    rw [capturesFor_append, hwc, runTicks_cons]
    show ([] : List GameEvent) ++ capturesFor nc.coord
        ((GameLogic.tick GameConfig.default (l1 ++ nc :: l2) ms tk
            (runTicks GameConfig.default (l1 ++ nc :: l2) ms [] (t0 :: pre)).tracker).events
          ++ (runTicks GameConfig.default (l1 ++ nc :: l2) ms _ []).events) = _
    rw [List.nil_append, capturesFor_append, hkc]
    rfl
  · intro tr now
    exact tick_c_reset GameConfig.default l1 l2 nc a [] metlo mslo now tr
      hl1 hl2 hatt hm2 hlo
  · intro tr t1 htr
    exact (tick_c_start GameConfig.default l1 l2 nc a [] met ms t1 tr
      hl1 hl2 hatt hm hov htr hdur).1

/-- Witness for C4: target tile `(0,0)` with the single attacker at `(1,0)`
(owner 22); overloaded ticks at 100, 105, 109 propose nothing, the tick at
110 (= t0 + 10) proposes the capture. -/
theorem c4_witness :
    capturesFor targetTile00.coord
        (runTicks GameConfig.default ([] ++ targetTile00 :: [attacker22]) metricsHi []
          ((100 :: [105, 109]) ++ [110])).events
      = [.NodeCaptured targetTile00.coord attacker22.owner_id 110] :=
  (c4_theorem [] [attacker22] targetTile00 attacker22 metHi metLo metricsHi metricsLo
      (by decide) (by decide) (by decide) (by decide) (by decide) (by decide)
      (by decide)).2.1
    100 110 [105, 109] (by decide) (by decide)
